import Mathlib

/-!
Verification of the dynamic form controller (src/app/page.tsx).

The component keeps five pieces of state: the active field list, the entered
form data, the validation errors, the progress percentage and the status
message.  All handlers are embedded below as pure functions on `FormState`.

JavaScript objects are modelled as association lists `List (String × String)`
with insertion-order semantics: spreading `{...m, [k]: v}` replaces the value
of an existing key in place and appends a new key at the end; `delete m[k]`
filters the key out.  Truthiness of an optional string (`!m[k]`) is `truthy`.
The progress number is modelled as a rational; the only divergence from
JavaScript arithmetic is at a zero divisor (ℚ gives 0 where JS gives NaN),
which no theorem below relies on.

React's `useState` semantics matter in `handleInputChange`: the source calls
`setFormData({...formData, [name]: value})` and then `validateField`, whose
`updateProgress` reads the `formData` captured by the event handler's closure,
i.e. the data from BEFORE the current change.  The embedding reproduces this:
the stored data is updated, but the progress is computed from the old data.
-/

namespace DynamicForm

structure Field where
  name : String
  type : String
  label : String
  required : Bool
  options : Option (List String)
deriving DecidableEq

structure FormState where
  fields : List Field
  formData : List (String × String)
  errors : List (String × String)
  progress : ℚ
  message : String
deriving DecidableEq

/-- JS truthiness of an object lookup: `!m[k]` is `!truthy (getVal m k)`. -/
def truthy : Option String → Bool
  | none => false
  | some s => s ≠ ""

def hasKey : List (String × String) → String → Bool
  | [], _ => false
  | p :: m, k => p.1 = k || hasKey m k

def getVal : List (String × String) → String → Option String
  | [], _ => none
  | p :: m, k => if p.1 = k then some p.2 else getVal m k

/-- `{...m, [k]: v}`: replace in place when the key exists, append otherwise. -/
def insertVal (m : List (String × String)) (k v : String) : List (String × String) :=
  if hasKey m k then m.map (fun p => if p.1 = k then (k, v) else p)
  else m ++ [(k, v)]

/-- `delete m[k]`. -/
def eraseKey : List (String × String) → String → List (String × String)
  | [], _ => []
  | p :: m, k => if p.1 = k then eraseKey m k else p :: eraseKey m k

/-- The static catalog entry for `userInformation`. -/
def userInformationFields : List Field :=
  [ { name := "firstName", type := "text", label := "First Name", required := true, options := none },
    { name := "lastName", type := "text", label := "Last Name", required := true, options := none },
    { name := "age", type := "number", label := "Age", required := false, options := none } ]

/-- The static catalog entry for `addressInformation`. -/
def addressInformationFields : List Field :=
  [ { name := "street", type := "text", label := "Street", required := true, options := none },
    { name := "city", type := "text", label := "City", required := true, options := none },
    { name := "state", type := "dropdown", label := "State", required := true,
      options := some ["California", "Texas", "New York"] },
    { name := "zipCode", type := "text", label := "Zip Code", required := false, options := none } ]

/-- The static catalog entry for `paymentInformation`. -/
def paymentInformationFields : List Field :=
  [ { name := "cardNumber", type := "text", label := "Card Number", required := true, options := none },
    { name := "expiryDate", type := "date", label := "Expiry Date", required := true, options := none },
    { name := "cvv", type := "password", label := "CVV", required := true, options := none },
    { name := "cardholderName", type := "text", label := "Cardholder Name", required := true, options := none } ]

/-- `apiResponses[t]`: the catalog lookup, `none` for an unknown key. -/
def apiResponses (t : String) : Option (List Field) :=
  if t = "userInformation" then some userInformationFields
  else if t = "addressInformation" then some addressInformationFields
  else if t = "paymentInformation" then some paymentInformationFields
  else none

/-- Initial `useState` values. -/
def initialState : FormState :=
  { fields := [], formData := [], errors := [], progress := 0, message := "" }

/-- `handleFormTypeChange`: always clears the message and zeroes the progress;
only a truthy, known form type replaces the field list and clears data/errors. -/
def handleFormTypeChange (s : FormState) (formType : String) : FormState :=
  let s1 : FormState := { s with message := "", progress := 0 }
  if formType = "" then s1
  else
    match apiResponses formType with
    | some flds => { s1 with fields := flds, formData := [], errors := [] }
    | none => s1

/-- `updateProgress`: completed count is the number of entries of `formData`
whose key has no truthy entry in `newErrors`, divided by the required count. -/
def updateProgress (fields : List Field) (formData newErrors : List (String × String)) : ℚ :=
  let requiredFields := (fields.filter (fun f => f.required)).length
  let completedFields := (formData.filter (fun p => !truthy (getVal newErrors p.1))).length
  ((completedFields : ℚ) / (requiredFields : ℚ)) * 100

/-- The error-map update performed by `validateField`. -/
def validateFieldErrors (fields : List Field) (errors : List (String × String))
    (name value : String) : List (String × String) :=
  match fields.find? (fun f => f.name == name) with
  | some f =>
      if f.required = true ∧ value = "" then insertVal errors name (f.label ++ " is required")
      else eraseKey errors name
  | none => eraseKey errors name

/-- `validateField` as a state transformer: updates the errors and recomputes
the progress from the `formData` currently in the state. -/
def validateField (s : FormState) (name value : String) : FormState :=
  let newErrors := validateFieldErrors s.fields s.errors name value
  { s with errors := newErrors, progress := updateProgress s.fields s.formData newErrors }

/-- `handleInputChange`: stores the new value, then runs `validateField` —
whose progress computation sees the pre-change `formData` (stale closure). -/
def handleInputChange (s : FormState) (name value : String) : FormState :=
  { validateField s name value with formData := insertVal s.formData name value }

/-- `handleSubmit`: every required field with a falsy entry gets an error and
blocks the submission; on success the data and errors are cleared and the
success message set; the progress is never touched. -/
def handleSubmit (s : FormState) : FormState :=
  let missing := s.fields.filter (fun f => f.required && !truthy (getVal s.formData f.name))
  if missing.isEmpty then
    { s with message := "Form submitted successfully!", formData := [], errors := [] }
  else
    { s with
        errors := missing.foldl (fun e f => insertVal e f.name (f.label ++ " is required")) s.errors,
        message := "Please fill out all required fields." }

/-- Every required field of the active field set has a truthy (present and
non-empty) entry in the form data. -/
def allRequiredFilled (s : FormState) : Prop :=
  ∀ f ∈ s.fields, f.required = true → truthy (getVal s.formData f.name) = true

instance (s : FormState) : Decidable (allRequiredFilled s) := by
  unfold allRequiredFilled; infer_instance

/-- Modelled from the spec: the §3 progress formula exactly as the spec words
it — `100 × (count of required fields with no entry in ValidationErrors) /
(count of required fields)`.  Used only to compare against the code's
`updateProgress`. -/
def specProgressFormula (fields : List Field) (errors : List (String × String)) : ℚ :=
  let req := fields.filter (fun f => f.required)
  100 * (((req.filter (fun f => (getVal errors f.name).isNone)).length : ℚ)
    / ((req.length : ℚ)))

/-- States reachable from the initial state by the controller's operations,
with input changes restricted to names of the active field set. -/
inductive Reachable : FormState → Prop
  | init : Reachable initialState
  | selectType (s : FormState) (t : String) : Reachable s → Reachable (handleFormTypeChange s t)
  | input (s : FormState) (name value : String) : Reachable s →
      name ∈ s.fields.map Field.name → Reachable (handleInputChange s name value)
  | submit (s : FormState) : Reachable s → Reachable (handleSubmit s)

/-- Scenario states used by the concrete theorems below. -/
def sUser : FormState := handleFormTypeChange initialState "userInformation"

def sAnn : FormState := handleInputChange sUser "firstName" "Ann"

def sLee : FormState := handleInputChange sAnn "lastName" "Lee"

def sDone : FormState := handleSubmit sLee

def sAge : FormState := handleInputChange sLee "age" "30"

def sAge2 : FormState := handleInputChange sAge "age" "31"

def sPay : FormState := handleFormTypeChange initialState "paymentInformation"

def firstNameField : Field :=
  { name := "firstName", type := "text", label := "First Name", required := true, options := none }

def lastNameField : Field :=
  { name := "lastName", type := "text", label := "Last Name", required := true, options := none }

/-! ### Association-list lemmas -/

@[simp] lemma getVal_nil (k : String) : getVal [] k = none := rfl

lemma getVal_cons (p : String × String) (m : List (String × String)) (k : String) :
    getVal (p :: m) k = if p.1 = k then some p.2 else getVal m k := rfl

lemma hasKey_cons (p : String × String) (m : List (String × String)) (k : String) :
    hasKey (p :: m) k = (decide (p.1 = k) || hasKey m k) := rfl

lemma getVal_eq_none_of_hasKey_false (m : List (String × String)) (k : String)
    (h : hasKey m k = false) : getVal m k = none := by
  induction m with
  | nil => rfl
  | cons p t ih =>
      rw [hasKey_cons, Bool.or_eq_false_iff] at h
      rw [getVal_cons, if_neg (by simpa using h.1)]
      exact ih h.2

lemma getVal_map_replace_self (m : List (String × String)) (k v : String)
    (h : hasKey m k = true) :
    getVal (m.map (fun p => if p.1 = k then (k, v) else p)) k = some v := by
  induction m with
  | nil => simp [hasKey] at h
  | cons p t ih =>
      by_cases hp : p.1 = k
      · rw [List.map_cons, if_pos hp, getVal_cons]
        simp
      · rw [hasKey_cons, Bool.or_eq_true] at h
        rcases h with h | h
        · exact absurd (of_decide_eq_true h) hp
        · simpa [List.map_cons, if_neg hp, getVal_cons, hp] using ih h

lemma getVal_map_replace_ne (m : List (String × String)) (k v k' : String) (h : k' ≠ k) :
    getVal (m.map (fun p => if p.1 = k then (k, v) else p)) k' = getVal m k' := by
  induction m with
  | nil => rfl
  | cons p t ih =>
      by_cases hp : p.1 = k
      · rw [List.map_cons, if_pos hp, getVal_cons, getVal_cons,
          if_neg (fun he => h he.symm), if_neg (fun he => h (hp ▸ he).symm)]
        exact ih
      · rw [List.map_cons, if_neg hp, getVal_cons, getVal_cons]
        by_cases hpk : p.1 = k'
        · rw [if_pos hpk, if_pos hpk]
        · rw [if_neg hpk, if_neg hpk]; exact ih

@[simp] lemma getVal_insertVal_self (m : List (String × String)) (k v : String) :
    getVal (insertVal m k v) k = some v := by
  unfold insertVal
  by_cases h : hasKey m k = true
  · rw [if_pos h]; exact getVal_map_replace_self m k v h
  · rw [if_neg h]
    have hnone := getVal_eq_none_of_hasKey_false m k (Bool.eq_false_iff.2 h)
    induction m with
    | nil => simp [getVal_cons]
    | cons p t ih =>
        rw [hasKey_cons, Bool.or_eq_true] at h
        push_neg at h
        rw [List.cons_append, getVal_cons]
        rw [getVal_cons] at hnone
        by_cases hp : p.1 = k
        · exact absurd (decide_eq_true hp) h.1
        · rw [if_neg hp] at hnone ⊢
          exact ih (fun hc => h.2 hc) hnone

lemma getVal_insertVal_ne (m : List (String × String)) (k v k' : String) (h : k' ≠ k) :
    getVal (insertVal m k v) k' = getVal m k' := by
  unfold insertVal
  by_cases hk : hasKey m k = true
  · rw [if_pos hk]; exact getVal_map_replace_ne m k v k' h
  · rw [if_neg hk]
    induction m with
    | nil => rw [List.nil_append, getVal_cons, if_neg (fun he => h he.symm)]
    | cons p t ih =>
        rw [List.cons_append, getVal_cons, getVal_cons]
        by_cases hp : p.1 = k'
        · rw [if_pos hp, if_pos hp]
        · rw [if_neg hp, if_neg hp]
          exact ih (fun hc => hk (by rw [hasKey_cons, hc, Bool.or_true]))

@[simp] lemma getVal_eraseKey_self (m : List (String × String)) (k : String) :
    getVal (eraseKey m k) k = none := by
  induction m with
  | nil => rfl
  | cons p t ih =>
      unfold eraseKey
      by_cases hp : p.1 = k
      · rw [if_pos hp]; exact ih
      · rw [if_neg hp, getVal_cons, if_neg hp]; exact ih

lemma getVal_eraseKey_ne (m : List (String × String)) (k k' : String) (h : k' ≠ k) :
    getVal (eraseKey m k) k' = getVal m k' := by
  induction m with
  | nil => rfl
  | cons p t ih =>
      unfold eraseKey
      by_cases hp : p.1 = k
      · rw [if_pos hp, getVal_cons, if_neg (fun he => h (hp ▸ he).symm)]; exact ih
      · rw [if_neg hp, getVal_cons, getVal_cons]
        by_cases hpk : p.1 = k'
        · rw [if_pos hpk, if_pos hpk]
        · rw [if_neg hpk, if_neg hpk]; exact ih

/-! ### Key-set lemmas -/

lemma mem_keys_insertVal (m : List (String × String)) (k v k' : String)
    (h : k' ∈ (insertVal m k v).map Prod.fst) : k' ∈ m.map Prod.fst ∨ k' = k := by
  unfold insertVal at h
  by_cases hk : hasKey m k = true
  · rw [if_pos hk, List.map_map] at h
    rcases List.mem_map.1 h with ⟨p, hp, he⟩
    by_cases hpk : p.1 = k
    · right
      simpa [Function.comp, hpk] using he.symm
    · left
      simp only [Function.comp, if_neg hpk] at he
      exact he ▸ List.mem_map_of_mem Prod.fst hp
  · rw [if_neg hk, List.map_append] at h
    rcases List.mem_append.1 h with h | h
    · exact Or.inl h
    · simp at h
      exact Or.inr h

lemma mem_keys_eraseKey (m : List (String × String)) (k k' : String)
    (h : k' ∈ (eraseKey m k).map Prod.fst) : k' ∈ m.map Prod.fst := by
  induction m with
  | nil => exact absurd h (by simp [eraseKey])
  | cons p t ih =>
      unfold eraseKey at h
      by_cases hp : p.1 = k
      · rw [if_pos hp] at h
        rw [List.map_cons]
        exact List.mem_cons_of_mem _ (ih h)
      · rw [if_neg hp, List.map_cons] at h
        rcases List.mem_cons.1 h with h | h
        · simp [h]
        · simp [ih h]

lemma mem_keys_foldl_insert (l : List Field) (e : List (String × String)) (k : String)
    (h : k ∈ (l.foldl (fun acc g => insertVal acc g.name (g.label ++ " is required")) e).map
      Prod.fst) :
    k ∈ e.map Prod.fst ∨ k ∈ l.map Field.name := by
  induction l generalizing e with
  | nil => exact Or.inl h
  | cons g t ih =>
      rw [List.foldl_cons] at h
      rcases ih _ h with h1 | h1
      · rcases mem_keys_insertVal _ _ _ _ h1 with h2 | h2
        · exact Or.inl h2
        · right; simp [h2]
      · right; simp [h1]

lemma getVal_foldl_insert_not_mem (l : List Field) (e : List (String × String)) (k : String)
    (h : k ∉ l.map Field.name) :
    getVal (l.foldl (fun acc g => insertVal acc g.name (g.label ++ " is required")) e) k
      = getVal e k := by
  induction l generalizing e with
  | nil => rfl
  | cons g t ih =>
      simp only [List.map_cons, List.mem_cons, not_or] at h
      rw [List.foldl_cons, ih _ h.2, getVal_insertVal_ne _ _ _ _ h.1]

lemma getVal_foldl_insert_mem (l : List Field) (e : List (String × String)) (f : Field)
    (hf : f ∈ l) (hnd : (l.map Field.name).Nodup) :
    getVal (l.foldl (fun acc g => insertVal acc g.name (g.label ++ " is required")) e) f.name
      = some (f.label ++ " is required") := by
  induction l generalizing e with
  | nil => cases hf
  | cons g t ih =>
      rw [List.map_cons, List.nodup_cons] at hnd
      rcases List.mem_cons.1 hf with rfl | hmem
      · rw [List.foldl_cons, getVal_foldl_insert_not_mem t _ f.name hnd.1,
          getVal_insertVal_self]
      · rw [List.foldl_cons]
        exact ih _ hmem hnd.2

/-! ### Finding a field by name -/

lemma find_field_eq (fields : List Field) (f : Field)
    (hnd : (fields.map Field.name).Nodup) (hf : f ∈ fields) :
    fields.find? (fun g => g.name == f.name) = some f := by
  induction fields with
  | nil => cases hf
  | cons g t ih =>
      rw [List.map_cons, List.nodup_cons] at hnd
      rcases List.mem_cons.1 hf with rfl | hmem
      · rw [List.find?_cons_of_pos _ (by simp)]
      · have hg : (g.name == f.name) = false := by
          rw [beq_eq_false_iff_ne]
          intro he
          exact hnd.1 (he ▸ List.mem_map_of_mem Field.name hmem)
        rw [List.find?_cons_of_neg _ (by simp [hg]), ih hnd.2 hmem]

/-! ### Counting lemmas for the progress computation -/

lemma length_filter_le_of_imp (l : List α) (p q : α → Bool)
    (h : ∀ a ∈ l, p a = true → q a = true) :
    (l.filter p).length ≤ (l.filter q).length := by
  induction l with
  | nil => simp
  | cons a t ih =>
      have ht : ∀ x ∈ t, p x = true → q x = true :=
        fun x hx => h x (List.mem_cons_of_mem a hx)
      by_cases hp : p a = true
      · rw [List.filter_cons_of_pos hp, List.filter_cons_of_pos (h a (List.mem_cons_self a t) hp)]
        exact Nat.succ_le_succ (ih ht)
      · rw [List.filter_cons_of_neg (by simpa using hp)]
        by_cases hq : q a = true
        · rw [List.filter_cons_of_pos hq]
          exact Nat.le_succ_of_le (ih ht)
        · rw [List.filter_cons_of_neg (by simpa using hq)]
          exact ih ht

lemma length_filter_keys_eq (m : List (String × String)) (p : String → Bool) :
    (m.filter (fun x => p x.1)).length = ((m.map Prod.fst).filter p).length := by
  induction m with
  | nil => rfl
  | cons a t ih =>
      by_cases h : p a.1 = true
      · simp [List.filter_cons, h, ih]
      · simp [List.filter_cons, h, ih]

lemma length_filter_le_of_subset_nodup (k1 k2 : List String) (p : String → Bool)
    (hsub : ∀ x ∈ k1, x ∈ k2) (h1 : k1.Nodup) (h2 : k2.Nodup) :
    (k1.filter p).length ≤ (k2.filter p).length := by
  classical
  have hs : ∀ x ∈ k1.filter p, x ∈ k2.filter p := by
    intro x hx
    rcases List.mem_filter.1 hx with ⟨hm, hp⟩
    exact List.mem_filter.2 ⟨hsub x hm, hp⟩
  have n1 : (k1.filter p).Nodup := h1.filter _
  have n2 : (k2.filter p).Nodup := h2.filter _
  calc (k1.filter p).length = (k1.filter p).toFinset.card :=
        (List.toFinset_card_of_nodup n1).symm
    _ ≤ (k2.filter p).toFinset.card :=
        Finset.card_le_card (fun x hx => List.mem_toFinset.2 (hs x (List.mem_toFinset.1 hx)))
    _ = (k2.filter p).length := List.toFinset_card_of_nodup n2

/-! ### Progress lemmas -/

lemma updateProgress_eval (fields : List Field) (fd errs : List (String × String)) (a b : ℕ)
    (ha : (fd.filter (fun p => !truthy (getVal errs p.1))).length = a)
    (hb : (fields.filter (fun f => f.required)).length = b) :
    updateProgress fields fd errs = (a : ℚ) / (b : ℚ) * 100 := by
  simp only [updateProgress]
  rw [ha, hb]

lemma updateProgress_nonneg (fields : List Field) (fd errs : List (String × String)) :
    0 ≤ updateProgress fields fd errs := by
  simp only [updateProgress]
  positivity

/-! ### Behavior of validateField's error update -/

lemma validateFieldErrors_of_ne_empty (fields : List Field) (errs : List (String × String))
    (name value : String) (hv : value ≠ "") :
    validateFieldErrors fields errs name value = eraseKey errs name := by
  unfold validateFieldErrors
  cases hf : fields.find? (fun f => f.name == name) with
  | none => rfl
  | some f => exact if_neg (fun hc => hv hc.2)

lemma validateFieldErrors_found (fields : List Field) (errs : List (String × String))
    (f : Field) (value : String)
    (hfind : fields.find? (fun g => g.name == f.name) = some f) :
    validateFieldErrors fields errs f.name value =
      if f.required = true ∧ value = "" then insertVal errs f.name (f.label ++ " is required")
      else eraseKey errs f.name := by
  unfold validateFieldErrors
  rw [hfind]

lemma mem_keys_validateFieldErrors (fields : List Field) (errs : List (String × String))
    (name value k : String)
    (h : k ∈ (validateFieldErrors fields errs name value).map Prod.fst) :
    k ∈ errs.map Prod.fst ∨ k = name := by
  unfold validateFieldErrors at h
  split at h
  · split_ifs at h with hc
    · exact mem_keys_insertVal _ _ _ _ h
    · exact Or.inl (mem_keys_eraseKey _ _ _ h)
  · exact Or.inl (mem_keys_eraseKey _ _ _ h)

/-! ### Behavior of handleSubmit -/

lemma missing_isEmpty_iff (s : FormState) :
    (s.fields.filter (fun f => f.required && !truthy (getVal s.formData f.name))).isEmpty = true
      ↔ allRequiredFilled s := by
  rw [List.isEmpty_iff, List.filter_eq_nil_iff]
  unfold allRequiredFilled
  constructor
  · intro h f hf hreq
    have h2 := h f hf
    simp only [Bool.and_eq_true, Bool.not_eq_true', not_and, hreq, forall_const] at h2
    exact Bool.not_eq_false _ ▸ eq_true_of_ne_false h2
  · intro h f hf
    simp only [Bool.and_eq_true, Bool.not_eq_true', not_and]
    intro hreq
    rw [h f hf hreq]
    simp

lemma handleSubmit_of_filled (s : FormState) (h : allRequiredFilled s) :
    handleSubmit s =
      { s with message := "Form submitted successfully!", formData := [], errors := [] } := by
  simp only [handleSubmit]
  rw [if_pos ((missing_isEmpty_iff s).2 h)]

lemma handleSubmit_of_not_filled (s : FormState) (h : ¬ allRequiredFilled s) :
    handleSubmit s =
      { s with
          errors :=
            (s.fields.filter (fun f => f.required && !truthy (getVal s.formData f.name))).foldl
              (fun e f => insertVal e f.name (f.label ++ " is required")) s.errors,
          message := "Please fill out all required fields." } := by
  simp only [handleSubmit]
  rw [if_neg (fun hc => h ((missing_isEmpty_iff s).1 hc))]

/-! ### Behavior of handleFormTypeChange -/

lemma handleFormTypeChange_known (s : FormState) (t : String) (flds : List Field)
    (h : apiResponses t = some flds) :
    handleFormTypeChange s t =
      { fields := flds, formData := [], errors := [], progress := 0, message := "" } := by
  have ht : ¬ t = "" := by
    intro he
    rw [he] at h
    exact Option.noConfusion ((rfl : apiResponses "" = none) ▸ h)
  simp only [handleFormTypeChange]
  rw [if_neg ht, h]

lemma handleFormTypeChange_unknown (s : FormState) (t : String)
    (h : apiResponses t = none) :
    handleFormTypeChange s t = { s with message := "", progress := 0 } := by
  simp only [handleFormTypeChange]
  by_cases ht : t = ""
  · rw [if_pos ht]
  · rw [if_neg ht, h]

lemma required_count_pos_of_known (t : String) (flds : List Field)
    (h : apiResponses t = some flds) :
    0 < (flds.filter (fun f => f.required)).length := by
  unfold apiResponses at h
  split_ifs at h with h1 h2 h3
  · obtain rfl : flds = userInformationFields := by injection h with h2; exact h2.symm
    decide
  · obtain rfl : flds = addressInformationFields := by injection h with h2; exact h2.symm
    decide
  · obtain rfl : flds = paymentInformationFields := by injection h with h2; exact h2.symm
    decide

/-! ### Evaluation of the scenario states -/

lemma specProgressFormula_eval (fields : List Field) (errs : List (String × String)) (a b : ℕ)
    (ha : (((fields.filter (fun f => f.required)).filter
      (fun f => (getVal errs f.name).isNone)).length) = a)
    (hb : (fields.filter (fun f => f.required)).length = b) :
    specProgressFormula fields errs = 100 * ((a : ℚ) / (b : ℚ)) := by
  simp only [specProgressFormula]
  rw [ha, hb]

lemma sAnn_progress : sAnn.progress = 0 := by
  have h : sAnn.progress = updateProgress userInformationFields [] [] := rfl
  rw [h, updateProgress_eval _ _ _ 0 2 (by decide) (by decide)]
  norm_num

lemma sLee_progress : sLee.progress = 50 := by
  have h : sLee.progress = updateProgress userInformationFields [("firstName", "Ann")] [] := rfl
  rw [h, updateProgress_eval _ _ _ 1 2 (by decide) (by decide)]
  norm_num

lemma sDone_progress : sDone.progress = 50 := by
  have h : sDone.progress = updateProgress userInformationFields [("firstName", "Ann")] [] := rfl
  rw [h, updateProgress_eval _ _ _ 1 2 (by decide) (by decide)]
  norm_num

lemma sAge2_progress : sAge2.progress = 150 := by
  have h : sAge2.progress = updateProgress userInformationFields
      [("firstName", "Ann"), ("lastName", "Lee"), ("age", "30")] [] := rfl
  rw [h, updateProgress_eval _ _ _ 3 2 (by decide) (by decide)]
  norm_num

lemma after_submit_input_progress : (handleInputChange sDone "firstName" "x").progress = 0 := by
  have h : (handleInputChange sDone "firstName" "x").progress
      = updateProgress userInformationFields [] [] := rfl
  rw [h, updateProgress_eval _ _ _ 0 2 (by decide) (by decide)]
  norm_num

/-! ### The claims -/

/-- C1, counterexample.  After selecting `userInformation`, entering
firstName, lastName and age, and then changing age again, the stored progress
is 150: it differs from the spec's §3 formula (which gives 100 here, since
both required fields are error-free) and escapes the interval [0,100]. -/
theorem progress_spec_formula_counterexample :
    sAge2.progress = 150
    ∧ specProgressFormula sAge2.fields sAge2.errors = 100
    ∧ ¬ sAge2.progress ≤ 100 := by
  refine ⟨sAge2_progress, ?_, ?_⟩
  · rw [specProgressFormula_eval _ _ 2 2 (by decide) (by decide)]
    norm_num
  · rw [sAge2_progress]
    norm_num

/-- C1, amended.  Whenever progress is recomputed after `validateField` runs on
an input change, the resulting value equals 100 times the count of entries of
the PRE-CHANGE form data whose key has no truthy entry in the updated error
map, divided by the count of required fields of the active field set; the
value is always nonnegative but is not bounded by 100. -/
theorem progress_after_input_eq_stale_count (s : FormState) (name value : String) :
    (handleInputChange s name value).progress =
      ((s.formData.filter (fun p =>
          !truthy (getVal (validateFieldErrors s.fields s.errors name value) p.1))).length : ℚ)
        / ((s.fields.filter (fun f => f.required)).length : ℚ) * 100
    ∧ 0 ≤ (handleInputChange s name value).progress :=
  ⟨rfl, updateProgress_nonneg _ _ _⟩

/-- C2.  `handleSubmit` succeeds — sets the success message and clears the
form data and the errors — iff every required field of the active field set
has a truthy (present, non-empty) entry; otherwise it leaves the form data
unchanged, sets the generic failure message, and records a
`"<label> is required"` error for every missing required field. -/
theorem submit_success_iff_required_filled (s : FormState)
    (hnd : (s.fields.map Field.name).Nodup) :
    ((handleSubmit s).message = "Form submitted successfully!"
        ∧ (handleSubmit s).formData = [] ∧ (handleSubmit s).errors = []
      ↔ allRequiredFilled s)
    ∧ (¬ allRequiredFilled s →
        (handleSubmit s).formData = s.formData
        ∧ (handleSubmit s).message = "Please fill out all required fields."
        ∧ ∀ f ∈ s.fields, f.required = true → truthy (getVal s.formData f.name) = false →
            getVal (handleSubmit s).errors f.name = some (f.label ++ " is required")) := by
  by_cases h : allRequiredFilled s
  · rw [handleSubmit_of_filled s h]
    exact ⟨⟨fun _ => h, fun _ => ⟨rfl, rfl, rfl⟩⟩, fun hc => absurd h hc⟩
  · rw [handleSubmit_of_not_filled s h]
    refine ⟨⟨fun hc => absurd hc.1
        (by decide : ¬ ("Please fill out all required fields."
          = "Form submitted successfully!")), fun hc => absurd hc h⟩,
      fun _ => ⟨rfl, rfl, ?_⟩⟩
    intro f hf hreq hmiss
    have hmem : f ∈ s.fields.filter (fun f => f.required && !truthy (getVal s.formData f.name)) :=
      List.mem_filter.2 ⟨hf, by simp [hreq, hmiss]⟩
    have hnd2 : ((s.fields.filter
        (fun f => f.required && !truthy (getVal s.formData f.name))).map Field.name).Nodup :=
      List.Nodup.sublist ((List.filter_sublist _).map Field.name) hnd
    exact getVal_foldl_insert_mem _ _ f hmem hnd2

/-- Witness for C2: the payment form, submitted with nothing filled in. -/
theorem submit_success_iff_required_filled_witness :
    (sPay.fields.map Field.name).Nodup
    ∧ (((handleSubmit sPay).message = "Form submitted successfully!"
          ∧ (handleSubmit sPay).formData = [] ∧ (handleSubmit sPay).errors = []
        ↔ allRequiredFilled sPay)
      ∧ (¬ allRequiredFilled sPay →
          (handleSubmit sPay).formData = sPay.formData
          ∧ (handleSubmit sPay).message = "Please fill out all required fields."
          ∧ ∀ f ∈ sPay.fields, f.required = true → truthy (getVal sPay.formData f.name) = false →
              getVal (handleSubmit sPay).errors f.name = some (f.label ++ " is required"))) :=
  ⟨by decide, submit_success_iff_required_filled sPay (by decide)⟩

/-- C3.  Selecting any form type present in the catalog replaces the active
field list with exactly the catalog's descriptors in catalog order and resets
form data, errors, progress and the status message. -/
theorem selectFormType_known_resets (s : FormState) (t : String) (flds : List Field)
    (h : apiResponses t = some flds) :
    handleFormTypeChange s t =
      { fields := flds, formData := [], errors := [], progress := 0, message := "" } :=
  handleFormTypeChange_known s t flds h

/-- Witness for C3 at the `userInformation` type. -/
theorem selectFormType_known_resets_witness :
    apiResponses "userInformation" = some userInformationFields
    ∧ handleFormTypeChange initialState "userInformation" =
      { fields := userInformationFields, formData := [], errors := [], progress := 0,
        message := "" } :=
  ⟨rfl, selectFormType_known_resets initialState "userInformation" userInformationFields rfl⟩

/-- C4.  For a field of the active field set (with distinct field names):
if it is required and the value is empty, `validateField` records the
`"<label> is required"` error under its name; with a non-empty value, or for a
non-required field, `validateField` removes its name from the error map. -/
theorem validateField_required_behavior (s : FormState) (f : Field) (value : String)
    (hnd : (s.fields.map Field.name).Nodup) (hf : f ∈ s.fields) :
    (f.required = true → value = "" →
        getVal (validateField s f.name value).errors f.name = some (f.label ++ " is required"))
    ∧ (f.required = true → value ≠ "" →
        getVal (validateField s f.name value).errors f.name = none)
    ∧ (f.required = false →
        getVal (validateField s f.name value).errors f.name = none) := by
  have hfind := find_field_eq s.fields f hnd hf
  have herr : (validateField s f.name value).errors
      = validateFieldErrors s.fields s.errors f.name value := rfl
  rw [herr, validateFieldErrors_found s.fields s.errors f value hfind]
  refine ⟨fun hreq hv => ?_, fun hreq hv => ?_, fun hreq => ?_⟩
  · rw [if_pos ⟨hreq, hv⟩, getVal_insertVal_self]
  · rw [if_neg (fun hc => hv hc.2), getVal_eraseKey_self]
  · rw [if_neg (by simp [hreq]), getVal_eraseKey_self]

/-- Witness for C4: the required firstName field of the user form, given a
non-empty value. -/
theorem validateField_required_behavior_witness :
    ((sUser.fields.map Field.name).Nodup ∧ firstNameField ∈ sUser.fields)
    ∧ ((firstNameField.required = true → "Ann" = "" →
          getVal (validateField sUser firstNameField.name "Ann").errors firstNameField.name
            = some (firstNameField.label ++ " is required"))
      ∧ (firstNameField.required = true → "Ann" ≠ "" →
          getVal (validateField sUser firstNameField.name "Ann").errors firstNameField.name
            = none)
      ∧ (firstNameField.required = false →
          getVal (validateField sUser firstNameField.name "Ann").errors firstNameField.name
            = none)) :=
  ⟨⟨by decide, by decide⟩,
    validateField_required_behavior sUser firstNameField "Ann" (by decide) (by decide)⟩

/-- C5 (code bug).  The spec's scenario demands progress 50 after entering
firstName and 100 after entering lastName, but the code computes 0 and then
50, because `updateProgress` reads the form data captured before the current
input event; the field list, the absence of a firstName error and the
successful submission do match the scenario. -/
theorem scenario_userInformation_eval :
    sUser.fields.map Field.name = ["firstName", "lastName", "age"]
    ∧ getVal sAnn.errors "firstName" = none
    ∧ sAnn.progress = 0
    ∧ sLee.progress = 50
    ∧ sDone.message = "Form submitted successfully!"
    ∧ sDone.formData = [] ∧ sDone.errors = [] :=
  ⟨by decide, by decide, sAnn_progress, sLee_progress, by decide, by decide, by decide⟩

/-- C6.  In every state reachable by the controller's operations (with input
names drawn from the active field set), the keys of the form data and of the
error map are field names of the active field set. -/
theorem reachable_keys_subset (s : FormState) (h : Reachable s) :
    (∀ k ∈ s.formData.map Prod.fst, k ∈ s.fields.map Field.name)
    ∧ ∀ k ∈ s.errors.map Prod.fst, k ∈ s.fields.map Field.name := by
  induction h with
  | init => exact ⟨by simp [initialState], by simp [initialState]⟩
  | selectType s t hr ih =>
      by_cases hk : ∃ flds, apiResponses t = some flds
      · rcases hk with ⟨flds, hk⟩
        rw [handleFormTypeChange_known s t flds hk]
        exact ⟨by simp, by simp⟩
      · push_neg at hk
        have hnone : apiResponses t = none := by
          cases hik : apiResponses t with
          | none => rfl
          | some flds => exact absurd hik (hk flds)
        rw [handleFormTypeChange_unknown s t hnone]
        exact ih
  | input s name value hr hmem ih =>
      constructor
      · intro k hk
        have hfd : (handleInputChange s name value).formData
            = insertVal s.formData name value := rfl
        rw [hfd] at hk
        rcases mem_keys_insertVal _ _ _ _ hk with h1 | h1
        · exact ih.1 k h1
        · exact h1 ▸ hmem
      · intro k hk
        have herr : (handleInputChange s name value).errors
            = validateFieldErrors s.fields s.errors name value := rfl
        rw [herr] at hk
        rcases mem_keys_validateFieldErrors _ _ _ _ _ hk with h1 | h1
        · exact ih.2 k h1
        · exact h1 ▸ hmem
  | submit s hr ih =>
      by_cases hall : allRequiredFilled s
      · rw [handleSubmit_of_filled s hall]
        exact ⟨by simp, by simp⟩
      · rw [handleSubmit_of_not_filled s hall]
        refine ⟨ih.1, ?_⟩
        intro k hk
        rcases mem_keys_foldl_insert _ _ _ hk with h1 | h1
        · exact ih.2 k h1
        · rcases List.mem_map.1 h1 with ⟨f, hf, rfl⟩
          exact List.mem_map_of_mem _ (List.mem_of_mem_filter hf)

/-- Witness for C6 at the reachable state obtained by selecting
`userInformation` and entering firstName. -/
theorem reachable_keys_subset_witness :
    (∀ k ∈ sAnn.formData.map Prod.fst, k ∈ sAnn.fields.map Field.name)
    ∧ ∀ k ∈ sAnn.errors.map Prod.fst, k ∈ sAnn.fields.map Field.name :=
  reachable_keys_subset sAnn
    (Reachable.input sUser "firstName" "Ann"
      (Reachable.selectType initialState "userInformation" Reachable.init) (by decide))

/-- C7, counterexample.  Selecting an unknown form type after a successful
submission zeroes the progress (was 50) and clears the status message (was the
success string), so the prior controller state is NOT left fully in place. -/
theorem selectFormType_unknown_counterexample :
    sDone.message = "Form submitted successfully!"
    ∧ sDone.progress = 50
    ∧ (handleFormTypeChange sDone "bogus").message = ""
    ∧ (handleFormTypeChange sDone "bogus").progress = 0
    ∧ handleFormTypeChange sDone "bogus" ≠ sDone := by
  refine ⟨by decide, sDone_progress, by decide, by decide, fun he => ?_⟩
  exact absurd (congrArg FormState.message he) (by decide)

/-- C7, amended.  Selecting an empty or unknown form type leaves the active
field set, the form data and the errors in place, but resets the progress to
0 and clears the status message. -/
theorem selectFormType_unknown_frame (s : FormState) (t : String)
    (h : apiResponses t = none) :
    (handleFormTypeChange s t).fields = s.fields
    ∧ (handleFormTypeChange s t).formData = s.formData
    ∧ (handleFormTypeChange s t).errors = s.errors
    ∧ (handleFormTypeChange s t).progress = 0
    ∧ (handleFormTypeChange s t).message = "" := by
  rw [handleFormTypeChange_unknown s t h]
  exact ⟨rfl, rfl, rfl, rfl, rfl⟩

/-- Witness for C7's amended claim at an unknown type. -/
theorem selectFormType_unknown_frame_witness :
    apiResponses "bogus" = none
    ∧ ((handleFormTypeChange sDone "bogus").fields = sDone.fields
      ∧ (handleFormTypeChange sDone "bogus").formData = sDone.formData
      ∧ (handleFormTypeChange sDone "bogus").errors = sDone.errors
      ∧ (handleFormTypeChange sDone "bogus").progress = 0
      ∧ (handleFormTypeChange sDone "bogus").message = "") :=
  ⟨rfl, selectFormType_unknown_frame sDone "bogus" rfl⟩

/-- C8, counterexample.  After a successful submission the progress keeps its
pre-submission value (50) while the form data is empty; the next input step
that takes the required firstName field from empty to a non-empty valid value
drops the progress from 50 to 0 — progress is not monotone across such steps. -/
theorem progress_decrease_after_submit_counterexample :
    firstNameField ∈ sDone.fields
    ∧ firstNameField.required = true
    ∧ truthy (getVal sDone.formData "firstName") = false
    ∧ sDone.progress = 50
    ∧ (handleInputChange sDone "firstName" "x").progress = 0
    ∧ (handleInputChange sDone "firstName" "x").progress < sDone.progress := by
  refine ⟨by decide, rfl, by decide, sDone_progress, after_submit_input_progress, ?_⟩
  rw [sDone_progress, after_submit_input_progress]
  norm_num

/-- C8, amended.  An input step that gives a required field a non-empty value
never decreases the progress, PROVIDED the stored progress equals the progress
formula evaluated at some earlier snapshot of the form data whose keys are
among the current keys (true except right after a successful submission, which
clears the form data but keeps the stale progress). -/
theorem progress_mono_input_step (s : FormState) (fdPrev : List (String × String))
    (f : Field) (value : String)
    (hf : f ∈ s.fields) (hreq : f.required = true) (hv : value ≠ "")
    (hold : truthy (getVal s.formData f.name) = false ∨ getVal s.errors f.name ≠ none)
    (hsub : ∀ k ∈ fdPrev.map Prod.fst, k ∈ s.formData.map Prod.fst)
    (hnd1 : (fdPrev.map Prod.fst).Nodup) (hnd2 : (s.formData.map Prod.fst).Nodup)
    (hp : s.progress = updateProgress s.fields fdPrev s.errors) :
    s.progress ≤ (handleInputChange s f.name value).progress := by
  have hnew : (handleInputChange s f.name value).progress
      = updateProgress s.fields s.formData (eraseKey s.errors f.name) := by
    have h0 : (handleInputChange s f.name value).progress
        = updateProgress s.fields s.formData
            (validateFieldErrors s.fields s.errors f.name value) := rfl
    rw [h0, validateFieldErrors_of_ne_empty _ _ _ _ hv]
  rw [hp, hnew]
  have hcount : (fdPrev.filter (fun p => !truthy (getVal s.errors p.1))).length
      ≤ (s.formData.filter
          (fun p => !truthy (getVal (eraseKey s.errors f.name) p.1))).length :=
    calc (fdPrev.filter (fun p => !truthy (getVal s.errors p.1))).length
        = ((fdPrev.map Prod.fst).filter (fun k => !truthy (getVal s.errors k))).length :=
          length_filter_keys_eq fdPrev (fun k => !truthy (getVal s.errors k))
      _ ≤ ((s.formData.map Prod.fst).filter (fun k => !truthy (getVal s.errors k))).length :=
          length_filter_le_of_subset_nodup _ _ _ hsub hnd1 hnd2
      _ = (s.formData.filter (fun p => !truthy (getVal s.errors p.1))).length :=
          (length_filter_keys_eq s.formData (fun k => !truthy (getVal s.errors k))).symm
      _ ≤ (s.formData.filter
            (fun p => !truthy (getVal (eraseKey s.errors f.name) p.1))).length := by
          apply length_filter_le_of_imp
          intro p _ hp2
          by_cases hpk : p.1 = f.name
          · rw [hpk, getVal_eraseKey_self]
            rfl
          · rw [getVal_eraseKey_ne _ _ _ hpk]
            exact hp2
  simp only [updateProgress]
  rcases Nat.eq_zero_or_pos (s.fields.filter (fun f => f.required)).length with h0 | hposn
  · rw [h0]
    norm_num
  · have hq : (0:ℚ) < ((s.fields.filter (fun f => f.required)).length : ℚ) := by
      exact_mod_cast hposn
    apply mul_le_mul_of_nonneg_right _ (by norm_num : (0:ℚ) ≤ 100)
    exact (div_le_div_iff_of_pos_right hq).2 (by exact_mod_cast hcount)

/-- Witness for C8's amended claim: entering lastName after firstName raises
the progress from 0 to 50. -/
theorem progress_mono_input_step_witness :
    (lastNameField ∈ sAnn.fields ∧ "Lee" ≠ "")
    ∧ sAnn.progress ≤ (handleInputChange sAnn "lastName" "Lee").progress :=
  ⟨⟨by decide, by decide⟩,
    progress_mono_input_step sAnn [] lastNameField "Lee" (by decide) rfl (by decide)
      (Or.inl (by decide)) (by simp) (by simp) (by decide) rfl⟩

/-- C9.  When every required field is filled, `handleSubmit` sets the success
message and clears the form data and errors, but leaves the progress exactly
as it was. -/
theorem submit_success_preserves_progress (s : FormState) (h : allRequiredFilled s) :
    (handleSubmit s).progress = s.progress
    ∧ (handleSubmit s).message = "Form submitted successfully!"
    ∧ (handleSubmit s).formData = []
    ∧ (handleSubmit s).errors = [] := by
  rw [handleSubmit_of_filled s h]
  exact ⟨rfl, rfl, rfl, rfl⟩

/-- Witness for C9 at the fully filled user form. -/
theorem submit_success_preserves_progress_witness :
    allRequiredFilled sLee
    ∧ ((handleSubmit sLee).progress = sLee.progress
      ∧ (handleSubmit sLee).message = "Form submitted successfully!"
      ∧ (handleSubmit sLee).formData = []
      ∧ (handleSubmit sLee).errors = []) :=
  ⟨by decide, submit_success_preserves_progress sLee (by decide)⟩

/-- C10.  Every catalog field set contains a required field, so after
selecting any known form type the divisor used by `updateProgress` — the
count of required fields of the active field set — is nonzero. -/
theorem catalog_required_count_pos (s : FormState) (t : String) (flds : List Field)
    (h : apiResponses t = some flds) :
    0 < ((handleFormTypeChange s t).fields.filter (fun f => f.required)).length := by
  rw [handleFormTypeChange_known s t flds h]
  exact required_count_pos_of_known t flds h

/-- Witness for C10 at the `paymentInformation` type. -/
theorem catalog_required_count_pos_witness :
    apiResponses "paymentInformation" = some paymentInformationFields
    ∧ 0 < ((handleFormTypeChange initialState "paymentInformation").fields.filter
        (fun f => f.required)).length :=
  ⟨rfl, catalog_required_count_pos initialState "paymentInformation"
    paymentInformationFields rfl⟩

end DynamicForm
